import Mathlib

/-!
Verification of the CustomAdam optimizer (src/CustomAdam.py).

The file gives a shallow embedding of the class CustomAdam, which extends
torch.optim.Optimizer, and proves properties of its constructor and of its
method step.

Modelling choices, each noted again at the definition it concerns:
* a tensor of the numeric library is a flat list of exact rationals; the
  floating-point rounding of the original is not modelled, every arithmetic
  identity below is exact;
* the element-wise square root of the numeric library is an opaque primitive:
  every definition and theorem is parametrised by a function sq : Q -> Q
  standing for it; claims about concrete numeric values carry interval
  hypotheses on sq at the points where it is applied;
* in-place tensor mutation becomes explicit state threading: the method step
  returns the new optimizer state;
* a Python exception becomes the value none: step has type Option, and the
  constructor returns none exactly when it raises ValueError (the
  InvalidConfiguration error of the specification);
* broadcasting of mismatched shapes is not modelled: an element-wise binary
  operation on tensors of different lengths is a failure (none).
-/

/-- Tensors of the opaque numeric library, modelled as flat lists of exact
rationals; the shape of a tensor is its length. -/
abbrev Tensor := List ℚ

/-- Embedding of torch.zeros_like: a zero tensor of the same shape. -/
def zerosLike (x : Tensor) : Tensor := List.replicate x.length 0

/-- Element-wise binary operation on two tensors, failing (none) when the
shapes differ; broadcasting is not modelled. -/
def emap2 (f : ℚ → ℚ → ℚ) (a b : Tensor) : Option Tensor :=
  if a.length = b.length then some (List.zipWith f a b) else none

/-- A model parameter: its value tensor (param.data in the source) and its
optional gradient tensor (param.grad). -/
structure Param where
  data : Tensor
  grad : Option Tensor
deriving DecidableEq, Repr, Inhabited

/-- The per-group hyperparameters, the DEFAULTS dictionary of the source
constructor, stored in each parameter group by the torch base class. -/
structure GroupConfig where
  stepsize : ℚ
  bias_m1 : ℚ
  bias_m2 : ℚ
  epsilon : ℚ
  bias_correction : Bool
deriving DecidableEq, Repr, Inhabited

/-- One parameter group: the list under the key params together with the
hyperparameters of the group. -/
structure ParamGroup where
  cfg : GroupConfig
  params : List Param
deriving DecidableEq, Repr, Inhabited

/-- The optimizer state: self.param_groups, together with the entries of the
shared dictionary self.state used by step, namely the key step (0 when the
key is still absent) and the two moment keys (none while absent).  Note the
moment estimates are a single shared pair for the whole optimizer, not a
per-parameter table. -/
structure CustomAdam where
  param_groups : List ParamGroup
  state_step : ℕ
  first_moment_estimate : Option Tensor
  second_moment_estimate : Option Tensor
deriving DecidableEq, Repr, Inhabited

/-- Embedding of the guard param.grad.data == None of the source (line 50):
in torch, comparing a tensor with None is never True, so for a parameter
whose gradient is present the guard is False and the skip branch is dead
code.  (When the gradient is absent the attribute access itself raises
before the comparison; that case is handled at the call site.) -/
def tensorEqNone (_ : Tensor) : Bool := false

/-- Source line 24, the second validation of the constructor, with the
Python operator precedence bias_m1 < 0 or (bias_m2 < 0 and bias_correction);
true means the constructor raises ValueError. -/
def invalidBias (bias_m1 bias_m2 : ℚ) (bias_correction : Bool) : Bool :=
  decide (bias_m1 < 0) || (decide (bias_m2 < 0) && bias_correction)

/-- The full raise condition of the constructor (source lines 22 and 24):
stepsize < 0, or the bias validation fails. -/
def invalidConfiguration (cfg : GroupConfig) : Bool :=
  decide (cfg.stepsize < 0) || invalidBias cfg.bias_m1 cfg.bias_m2 cfg.bias_correction

/-- The state built by a successful constructor call (source lines 27 to 31):
the torch base class wraps the flat parameter list into a single parameter
group carrying the DEFAULTS dictionary; the shared state dictionary starts
empty (step counter 0, no moment tensors). -/
def freshAdam (cfg : GroupConfig) (params : List Param) : CustomAdam :=
  { param_groups := [{ cfg := cfg, params := params }],
    state_step := 0,
    first_moment_estimate := none,
    second_moment_estimate := none }

/-- Embedding of the constructor (source lines 20 to 31): validate the
hyperparameters, then build the fresh state.  Returns none exactly when the
constructor raises ValueError. -/
def CustomAdam.init (cfg : GroupConfig) (params : List Param) : Option CustomAdam :=
  if invalidConfiguration cfg then none else some (freshAdam cfg params)

/-- The values produced while the loop body of step (source lines 50 to 77)
processes one parameter: the updated parameter value, the gradient tensor
after the call (the source squares it in place via gradients.pow_(2)), the
two moment cells as stored at the end of the body (the in-place divide_ and
sqrt_ of line 76 to 77 leave m/(sqrt(v)+eps) and sqrt(v) in them), and the
two moment cells as they stand just after the bias-correction block (lines
68 to 72). -/
structure ParamOut where
  data : Tensor
  grad : Tensor
  m : Tensor
  v : Tensor
  mCorr : Tensor
  vCorr : Tensor
deriving DecidableEq, Repr, Inhabited

/-- Embedding of the loop body of step for one parameter with gradient g
(source lines 54 to 77).  t is the current value of self.state. step; when
t = 1 the moment cells are (re)initialised to zeros of the shape of the
parameter (lines 55 to 58); m? and v? are the incoming shared moment cells.
Reading a still-absent moment cell (only possible when t is not 1 before any
initialisation) is a Python failure, hence none. -/
def updateParam (sq : ℚ → ℚ) (cfg : GroupConfig) (t : ℕ) (x g : Tensor)
    (m? v? : Option Tensor) : Option ParamOut :=
  let m? := if t = 1 then some (zerosLike x) else m?
  let v? := if t = 1 then some (zerosLike x) else v?
  match m?, v? with
  | some m, some v =>
    (emap2 (· + ·) (m.map (· * cfg.bias_m1)) (g.map (· * (1 - cfg.bias_m1)))).bind fun m1 =>
    let gSq := g.map fun a => a ^ 2
    (emap2 (· + ·) (v.map (· * cfg.bias_m2)) (gSq.map (· * (1 - cfg.bias_m2)))).bind fun v1 =>
    let mC := if cfg.bias_correction then m1.map (· / (1 - cfg.bias_m1 ^ t)) else m1
    let vC := if cfg.bias_correction then v1.map (· / (1 - cfg.bias_m2 ^ t)) else v1
    let vS := vC.map sq
    (emap2 (· / ·) mC (vS.map (· + cfg.epsilon))).bind fun mF =>
    (emap2 (· + ·) x (mF.map fun a => -cfg.stepsize * a)).map fun x2 =>
    { data := x2, grad := gSq, m := mF, v := vS, mCorr := mC, vCorr := vC }
  | _, _ => none

/-- The inner loop of step over the parameters of one group (source lines
47 to 77), threading the shared moment cells through the body.  A parameter
whose gradient is absent makes the whole call fail: the source evaluates
param.grad.data, and on None that attribute access raises AttributeError
before the comparison with None can run. -/
def updateParams (sq : ℚ → ℚ) (cfg : GroupConfig) (t : ℕ) :
    List Param → Option Tensor → Option Tensor →
    Option (List Param × Option Tensor × Option Tensor)
  | [], m?, v? => some ([], m?, v?)
  | p :: rest, m?, v? =>
    match p.grad with
    | none => none
    | some g =>
      if tensorEqNone g then
        (updateParams sq cfg t rest m? v?).map fun r => (p :: r.1, r.2)
      else
        (updateParam sq cfg t p.data g m? v?).bind fun po =>
        (updateParams sq cfg t rest (some po.m) (some po.v)).map fun r =>
        ({ data := po.data, grad := some po.grad } :: r.1, r.2)

/-- The outer loop of step over the parameter groups (source line 45),
each group using its own hyperparameters, all groups sharing the one pair
of moment cells. -/
def updateGroups (sq : ℚ → ℚ) (t : ℕ) :
    List ParamGroup → Option Tensor → Option Tensor →
    Option (List ParamGroup × Option Tensor × Option Tensor)
  | [], m?, v? => some ([], m?, v?)
  | gr :: rest, m?, v? =>
    (updateParams sq gr.cfg t gr.params m? v?).bind fun r =>
    (updateGroups sq t rest r.2.1 r.2.2).map fun r2 =>
    ({ cfg := gr.cfg, params := r.1 } :: r2.1, r2.2)

/-- Embedding of the method step (source lines 34 to 79).  The optional
loss closure of the source is a pass-through (evaluated and returned,
unused by the update itself) and is omitted.  The step counter is set to 1
when it is still falsy, otherwise incremented (lines 40 to 43); the
resulting value t is used as the bias-correction exponent.  Returns the new
optimizer state, or none when the call raises. -/
def CustomAdam.step (sq : ℚ → ℚ) (self : CustomAdam) : Option CustomAdam :=
  let t := if self.state_step = 0 then 1 else self.state_step + 1
  (updateGroups sq t self.param_groups
      self.first_moment_estimate self.second_moment_estimate).map fun r =>
    { param_groups := r.1, state_step := t,
      first_moment_estimate := r.2.1, second_moment_estimate := r.2.2 }

/-- View of the parameter values of a state, group by group. -/
def CustomAdam.paramsView (self : CustomAdam) : List (List Tensor) :=
  self.param_groups.map fun gr => gr.params.map Param.data

/-- View of the gradient tensors of a state, group by group. -/
def CustomAdam.gradsView (self : CustomAdam) : List (List (Option Tensor)) :=
  self.param_groups.map fun gr => gr.params.map Param.grad

/-- All parameters of a state, across all groups, in processing order. -/
def CustomAdam.allParams (self : CustomAdam) : List Param :=
  (self.param_groups.map ParamGroup.params).flatten

/-- An arbitrary concrete interpretation of the opaque element-wise square
root primitive, used for closed evaluations of properties that do not
depend on its values (shapes, control flow, gradients). -/
def sqId : ℚ → ℚ := fun a => a

/-- The per-parameter shape invariant claimed by the specification, read on
the state the code actually keeps: the (single, shared) pair of moment
tensors has the shape of every parameter of the optimizer. -/
def momentShapeInv (self : CustomAdam) : Bool :=
  self.param_groups.all fun gr => gr.params.all fun p =>
    decide (self.first_moment_estimate.map List.length = some p.data.length) &&
    decide (self.second_moment_estimate.map List.length = some p.data.length)

/-- The external training loop writing a fresh gradient into one shared
parameter between two step calls. -/
def feedParam (p : Param) (g? : Option Tensor) : Param :=
  { p with grad := g? }

/-- Gradient writes for one parameter group, one optional gradient tensor
per parameter, in order. -/
def feedGroup (gr : ParamGroup) (f : List (Option Tensor)) : ParamGroup :=
  { gr with params := gr.params.zipWith feedParam f }

/-- The external training loop writing fresh gradients into the shared
parameter tensors between two step calls: one optional gradient tensor per
parameter, in group order. -/
def feedGrads (self : CustomAdam) (feed : List (List (Option Tensor))) : CustomAdam :=
  { self with param_groups := self.param_groups.zipWith feedGroup feed }

/-- The trajectory of an optimizer driven by an external loop: for each
entry of the gradient schedule, write the gradients and call step; each
entry of the result is the optimizer state after the corresponding call
(none once a call has raised). -/
def trajectory (sq : ℚ → ℚ) (s? : Option CustomAdam) :
    List (List (List (Option Tensor))) → List (Option CustomAdam)
  | [] => []
  | f :: fs =>
    let s1 := s?.bind fun s => CustomAdam.step sq (feedGrads s f)
    s1 :: trajectory sq s1 fs

/-- The hyperparameters of the worked scenario of the specification:
step_size 0.1, decay1 0.9, decay2 0.999, epsilon 1e-8, no bias
correction. -/
def cfgScenario : GroupConfig :=
  { stepsize := 1/10, bias_m1 := 9/10, bias_m2 := 999/1000,
    epsilon := 1/100000000, bias_correction := false }

/-- A valid configuration with particularly simple values, used for closed
instances whose content does not depend on the hyperparameter values. -/
def cfgZ : GroupConfig :=
  { stepsize := 0, bias_m1 := 0, bias_m2 := 0, epsilon := 1,
    bias_correction := false }

/-- A valid configuration with bias correction enabled and decay rates 1/2,
used to instantiate the bias-correction cancellation theorem. -/
def cfgHalf : GroupConfig :=
  { stepsize := 1, bias_m1 := 1/2, bias_m2 := 1/2, epsilon := 1,
    bias_correction := true }

/-- A concrete interpretation of the square root primitive that is exact at
the one point where the worked scenario applies it: sqrt(0.001) lies
between 0.03162277 and 0.03162278, and this function returns the lower
bound everywhere. -/
def sqApprox : ℚ → ℚ := fun _ => 3162277/100000000

/-- A degenerate interpretation of the square root primitive (constantly
zero), enough to instantiate theorems whose hypotheses only require its
value at one point to differ from a given rational. -/
def sqZero : ℚ → ℚ := fun _ => 0

/-- Concrete optimizer state used to instantiate theorems: one group with
the simple configuration and a single two-element parameter with a
gradient. -/
def stW : CustomAdam := freshAdam cfgZ [{ data := [0, 0], grad := some [1, 1] }]

/-- The state stW after one step call under the interpretation sqId,
written out literally: the gradient has been squared in place, the step
counter is 1, and the shared moment cells hold the clobbered values
m/(sqrt(v)+eps) and sqrt(v). -/
def stWOut : CustomAdam :=
  { param_groups := [{ cfg := cfgZ, params := [{ data := [0, 0], grad := some [1, 1] }] }],
    state_step := 1,
    first_moment_estimate := some [1/2, 1/2],
    second_moment_estimate := some [1, 1] }

/-- A successful constructor call returns exactly the fresh state. -/
theorem init_eq_some {cfg : GroupConfig} (params : List Param)
    (h : invalidConfiguration cfg = false) :
    CustomAdam.init cfg params = some (freshAdam cfg params) := by
  simp [CustomAdam.init, h]

/-- Inversion for a successful element-wise operation: the inputs had equal
shapes and the output is the zip. -/
theorem emap2_eq_some {f : ℚ → ℚ → ℚ} {a b c : Tensor}
    (h : emap2 f a b = some c) :
    a.length = b.length ∧ c = List.zipWith f a b := by
  unfold emap2 at h
  split at h
  · exact ⟨by assumption, (Option.some.inj h).symm⟩
  · cases h

/-- The shape of the output of a successful element-wise operation is the
common shape of its inputs. -/
theorem emap2_length {f : ℚ → ℚ → ℚ} {a b c : Tensor}
    (h : emap2 f a b = some c) : c.length = a.length ∧ c.length = b.length := by
  obtain ⟨hab, rfl⟩ := emap2_eq_some h
  simp [List.length_zipWith, hab]

theorem updateParam_lengths {sq : ℚ → ℚ} {cfg : GroupConfig} {t : ℕ} {x g : Tensor}
    {m? v? : Option Tensor} {po : ParamOut}
    (h : updateParam sq cfg t x g m? v? = some po) :
    po.data.length = x.length ∧ po.m.length = x.length ∧ po.v.length = x.length := by
  unfold updateParam at h
  rcases hif1 : (if t = 1 then some (zerosLike x) else m?) with _ | m <;>
    rcases hif2 : (if t = 1 then some (zerosLike x) else v?) with _ | v <;>
    rw [hif1, hif2] at h <;> simp only [] at h
  · cases h
  · cases h
  · cases h
  simp only [Option.bind_eq_some, Option.map_eq_some'] at h
  obtain ⟨m1, hm1, v1, hv1, mF, hmF, x2, hx2, hpo⟩ := h
  obtain ⟨hl1, _⟩ := emap2_eq_some hm1
  obtain ⟨hlF1, hlF2⟩ := emap2_length hmF
  obtain ⟨hlx1, _⟩ := emap2_eq_some hx2
  obtain ⟨hlx2a, _⟩ := emap2_length hx2
  subst hpo
  simp only at hlx1 hlF1 hlF2 hlx2a ⊢
  simp only [List.length_map, apply_ite List.length, ite_self] at hlx1 hlF1 hlF2 hlx2a ⊢
  refine ⟨by omega, by omega, by omega⟩

theorem updateParams_shape {sq : ℚ → ℚ} {cfg : GroupConfig} {t : ℕ} {n : ℕ} :
    ∀ (l : List Param) (m? v? : Option Tensor)
      (out : List Param × Option Tensor × Option Tensor),
      (∀ p ∈ l, p.data.length = n) →
      updateParams sq cfg t l m? v? = some out →
      (∀ p ∈ out.1, p.data.length = n) ∧
      (l = [] → out.2 = (m?, v?)) ∧
      (l ≠ [] → ∃ m v, out.2 = (some m, some v) ∧ m.length = n ∧ v.length = n)
  | [], m?, v?, out, _, h => by
    simp only [updateParams] at h
    obtain rfl := Option.some.inj h
    refine ⟨by simp, fun _ => rfl, fun hne => absurd rfl hne⟩
  | p :: rest, m?, v?, out, hall, h => by
    simp only [updateParams, tensorEqNone] at h
    rcases hg : p.grad with _ | g
    · rw [hg] at h; cases h
    rw [hg] at h
    simp only [Bool.false_eq_true, if_false, Option.bind_eq_some, Option.map_eq_some'] at h
    obtain ⟨po, hpo, r, hr, hout⟩ := h
    obtain ⟨hpd, hpm, hpv⟩ := updateParam_lengths hpo
    have hpn : p.data.length = n := hall p (by simp)
    have ih := updateParams_shape rest (some po.m) (some po.v) r
      (fun q hq => hall q (by simp [hq])) hr
    subst hout
    refine ⟨?_, by simp, fun _ => ?_⟩
    · intro q hq
      rcases List.mem_cons.mp hq with rfl | hq2
      · simpa using hpd.trans hpn
      · exact ih.1 q hq2
    · rcases List.eq_nil_or_concat rest with rfl | _
      · obtain hr2 := ih.2.1 rfl
        exact ⟨po.m, po.v, by simp [hr2], hpm.trans hpn, hpv.trans hpn⟩
      · have hne : rest ≠ [] := by rintro rfl; simp_all
        exact ih.2.2 hne

theorem updateGroups_shape {sq : ℚ → ℚ} {t : ℕ} {n : ℕ} :
    ∀ (gs : List ParamGroup) (m? v? : Option Tensor)
      (out : List ParamGroup × Option Tensor × Option Tensor),
      (∀ gr ∈ gs, ∀ p ∈ gr.params, p.data.length = n) →
      updateGroups sq t gs m? v? = some out →
      (∀ gr ∈ out.1, ∀ p ∈ gr.params, p.data.length = n) ∧
      ((∀ gr ∈ gs, gr.params = []) → out.2 = (m?, v?)) ∧
      ((∃ gr ∈ gs, gr.params ≠ []) → ∃ m v, out.2 = (some m, some v) ∧ m.length = n ∧ v.length = n)
  | [], m?, v?, out, _, h => by
    simp only [updateGroups] at h
    obtain rfl := Option.some.inj h
    refine ⟨by simp, fun _ => rfl, by simp⟩
  | gr :: rest, m?, v?, out, hall, h => by
    simp only [updateGroups, Option.bind_eq_some, Option.map_eq_some'] at h
    obtain ⟨r, hr, r2, hr2, hout⟩ := h
    have hps := updateParams_shape gr.params m? v? r (hall gr (by simp)) hr
    have ih := updateGroups_shape rest r.2.1 r.2.2 r2
      (fun g hg => hall g (by simp [hg])) hr2
    subst hout
    classical
    refine ⟨?_, ?_, ?_⟩
    · intro g hg
      rcases List.mem_cons.mp hg with rfl | hg2
      · exact hps.1
      · exact ih.1 g hg2
    · intro hemp
      have h1 : r.2 = (m?, v?) := hps.2.1 (hemp gr (by simp))
      have h2 : r2.2 = (r.2.1, r.2.2) := ih.2.1 (fun g hg => hemp g (by simp [hg]))
      simp only [h2, ← h1]
    · rintro ⟨g, hg, hgne⟩
      by_cases hrest : ∃ g2 ∈ rest, g2.params ≠ []
      · exact ih.2.2 hrest
      · push_neg at hrest
        have hgr : g = gr := by
          rcases List.mem_cons.mp hg with rfl | hg2
          · rfl
          · exact absurd (hrest g hg2) hgne
        subst hgr
        obtain ⟨m, v, hmv, hm, hv⟩ := hps.2.2 hgne
        have h2 : r2.2 = (r.2.1, r.2.2) := ih.2.1 hrest
        refine ⟨m, v, ?_, hm, hv⟩
        simp only [h2, ← hmv]

theorem updateParams_none_of_missing_grad {sq : ℚ → ℚ} {cfg : GroupConfig} {t : ℕ} :
    ∀ (l : List Param) (m? v? : Option Tensor), (∃ p ∈ l, p.grad = none) →
      updateParams sq cfg t l m? v? = none
  | [], _, _, h => by simp at h
  | p :: rest, m?, v?, h => by
    simp only [updateParams, tensorEqNone]
    rcases hg : p.grad with _ | g
    · rfl
    obtain ⟨q, hq, hqg⟩ := h
    have hqr : q ∈ rest := by
      rcases List.mem_cons.mp hq with rfl | h2
      · rw [hg] at hqg; cases hqg
      · exact h2
    simp only [Bool.false_eq_true, if_false]
    rcases hpo : updateParam sq cfg t p.data g m? v? with _ | po
    · rfl
    · simp only [Option.some_bind]
      rw [updateParams_none_of_missing_grad rest (some po.m) (some po.v) ⟨q, hqr, hqg⟩]
      rfl

theorem updateGroups_none_of_missing_grad {sq : ℚ → ℚ} {t : ℕ} :
    ∀ (gs : List ParamGroup) (m? v? : Option Tensor),
      (∃ gr ∈ gs, ∃ p ∈ gr.params, p.grad = none) →
      updateGroups sq t gs m? v? = none
  | [], _, _, h => by simp at h
  | gr :: rest, m?, v?, h => by
    simp only [updateGroups]
    obtain ⟨g, hg, hp⟩ := h
    rcases List.mem_cons.mp hg with rfl | hg2
    · rw [updateParams_none_of_missing_grad g.params m? v? hp]
      rfl
    · rcases hr : updateParams sq gr.cfg t gr.params m? v? with _ | r
      · rfl
      · simp only [Option.some_bind]
        rw [updateGroups_none_of_missing_grad rest r.2.1 r.2.2 ⟨g, hg2, hp⟩]
        rfl

theorem allParams_mem {s : CustomAdam} {p : Param} :
    p ∈ s.allParams ↔ ∃ gr ∈ s.param_groups, p ∈ gr.params := by
  simp only [CustomAdam.allParams, List.mem_flatten, List.mem_map]
  constructor
  · rintro ⟨l, ⟨gr, hgr, rfl⟩, hp⟩
    exact ⟨gr, hgr, hp⟩
  · rintro ⟨gr, hgr, hp⟩
    exact ⟨gr.params, ⟨gr, hgr, rfl⟩, hp⟩

theorem allParams_ne_nil {s : CustomAdam} (h : s.allParams ≠ []) :
    ∃ gr ∈ s.param_groups, gr.params ≠ [] := by
  by_contra hc
  push_neg at hc
  apply h
  simp only [CustomAdam.allParams, List.flatten_eq_nil_iff]
  intro l hl
  obtain ⟨gr, hgr, rfl⟩ := List.mem_map.mp hl
  exact hc gr hgr

/-- C1: with bias correction disabled, one step() call moves a parameter p
with gradient g to p - step_size * ((1-b1)*g) / (sqrt((1-b2)*g^2) + eps);
in the worked scenario the result is approximately -0.3162. -/
theorem C1_one_step_update (sq : ℚ → ℚ)
    (hlo : 3162277/100000000 ≤ sq (1/1000)) (hhi : sq (1/1000) ≤ 3162278/100000000) :
    (∀ (stepsize b1 b2 eps p g : ℚ),
      invalidConfiguration ⟨stepsize, b1, b2, eps, false⟩ = false →
      ((CustomAdam.init ⟨stepsize, b1, b2, eps, false⟩ [{ data := [p], grad := some [g] }]).bind
          (CustomAdam.step sq)).map CustomAdam.paramsView =
        some [[[p - stepsize * ((1 - b1) * g) / (sq ((1 - b2) * g ^ 2) + eps)]]]) ∧
    (∃ q, ((CustomAdam.init cfgScenario [{ data := [0], grad := some [1] }]).bind
          (CustomAdam.step sq)).map CustomAdam.paramsView = some [[[q]]] ∧
      |q + 3162/10000| ≤ 1/10000) := by
  constructor
  · intro s b1 b2 e p g hv
    rw [init_eq_some _ hv]
    simp only [Option.some_bind]
    simp [CustomAdam.step, freshAdam, updateGroups, updateParams, updateParam, tensorEqNone,
          emap2, zerosLike, CustomAdam.paramsView]
    have harg : g ^ 2 * (1 - b2) = (1 - b2) * g ^ 2 := by ring
    rw [harg]
    ring
  · refine ⟨-(1/10 * (1/10 / (sq (1/1000) + 1/100000000))), ?_, ?_⟩
    · rw [init_eq_some _ (by norm_num [invalidConfiguration, invalidBias, cfgScenario])]
      simp only [Option.some_bind]
      simp [CustomAdam.step, freshAdam, updateGroups, updateParams, updateParam, tensorEqNone,
            emap2, zerosLike, CustomAdam.paramsView, cfgScenario]
      norm_num
    · have hd0 : (0:ℚ) < sq (1/1000) + 1/100000000 := by linarith
      have h1 : (1:ℚ)/100 / (sq (1/1000) + 1/100000000) ≤ 3163/10000 := by
        rw [div_le_iff₀ hd0]; linarith
      have h2 : (3161:ℚ)/10000 ≤ 1/100 / (sq (1/1000) + 1/100000000) := by
        rw [le_div_iff₀ hd0]; linarith
      have hqe : (1:ℚ)/10 * (1/10 / (sq (1/1000) + 1/100000000)) =
          1/100 / (sq (1/1000) + 1/100000000) := by ring
      rw [abs_le]
      constructor <;> linarith

/-- Witness for C1: the interval hypotheses on the square root primitive
hold for a concrete interpretation, and the scenario instance follows. -/
theorem C1_one_step_update_witness :
    (3162277/100000000 ≤ sqApprox (1/1000)) ∧ (sqApprox (1/1000) ≤ 3162278/100000000) ∧
    (∃ q, ((CustomAdam.init cfgScenario [{ data := [0], grad := some [1] }]).bind
        (CustomAdam.step sqApprox)).map CustomAdam.paramsView = some [[[q]]] ∧
      |q + 3162/10000| ≤ 1/10000) :=
  ⟨by norm_num [sqApprox], by norm_num [sqApprox],
    (C1_one_step_update sqApprox (by norm_num [sqApprox]) (by norm_num [sqApprox])).2⟩

/-- C2: the constructor raises InvalidConfiguration exactly when
step_size < 0, or decay1 < 0, or (decay2 < 0 and bias correction is
enabled); for every other hyperparameter assignment it completes. -/
theorem C2_constructor_validation (stepsize bias_m1 bias_m2 epsilon : ℚ)
    (bc : Bool) (ps : List Param) :
    (CustomAdam.init ⟨stepsize, bias_m1, bias_m2, epsilon, bc⟩ ps = none ↔
      stepsize < 0 ∨ bias_m1 < 0 ∨ (bias_m2 < 0 ∧ bc = true)) ∧
    ((CustomAdam.init ⟨stepsize, bias_m1, bias_m2, epsilon, bc⟩ ps).isSome = true ↔
      ¬(stepsize < 0 ∨ bias_m1 < 0 ∨ (bias_m2 < 0 ∧ bc = true))) := by
  have hcond : invalidConfiguration ⟨stepsize, bias_m1, bias_m2, epsilon, bc⟩ = true ↔
      (stepsize < 0 ∨ bias_m1 < 0 ∨ (bias_m2 < 0 ∧ bc = true)) := by
    simp [invalidConfiguration, invalidBias, or_assoc]
  by_cases h : stepsize < 0 ∨ bias_m1 < 0 ∨ (bias_m2 < 0 ∧ bc = true)
  · have hc : invalidConfiguration ⟨stepsize, bias_m1, bias_m2, epsilon, bc⟩ = true := hcond.mpr h
    simp [CustomAdam.init, hc, h]
  · have hc : invalidConfiguration ⟨stepsize, bias_m1, bias_m2, epsilon, bc⟩ = false :=
      Bool.eq_false_iff.mpr fun hc => h (hcond.mp hc)
    simp [CustomAdam.init, hc, h]

/-- C3: the code does not skip a parameter whose gradient is absent; it
evaluates param.grad.data, and the attribute access on None raises, so the
whole step() call fails whenever any managed parameter lacks a gradient. -/
theorem C3_missing_gradient_raises (sq : ℚ → ℚ) (s : CustomAdam)
    (h : ∃ p ∈ s.allParams, p.grad = none) :
    CustomAdam.step sq s = none := by
  obtain ⟨p, hp, hg⟩ := h
  obtain ⟨gr, hgr, hpg⟩ := allParams_mem.mp hp
  simp only [CustomAdam.step]
  rw [updateGroups_none_of_missing_grad s.param_groups _ _ ⟨gr, hgr, p, hpg, hg⟩]
  rfl

/-- Witness for C3: a freshly constructed optimizer over one gradient-free
parameter raises on its first step() call. -/
theorem C3_missing_gradient_raises_witness :
    CustomAdam.step sqId (freshAdam cfgZ [{ data := [0], grad := none }]) = none :=
  C3_missing_gradient_raises sqId _
    ⟨{ data := [0], grad := none }, by simp [CustomAdam.allParams, freshAdam], rfl⟩

/-- C4 counterexample: the moment state is one shared pair, not
per-parameter; with two parameters of shapes 1 and 2, after one completed
step() call the claimed invariant, namely that the moment tensors have the
shape of every parameter they serve, is false. -/
theorem C4_counterexample :
    ((CustomAdam.init cfgZ [{ data := [0], grad := some [1] },
        { data := [0, 0], grad := some [1, 1] }]).bind
      (CustomAdam.step sqId)).map momentShapeInv = some false := by
  rw [init_eq_some _ (by norm_num [invalidConfiguration, invalidBias, cfgZ])]
  simp only [Option.some_bind]
  simp [CustomAdam.step, freshAdam, updateGroups, updateParams, updateParam, tensorEqNone,
        emap2, zerosLike, momentShapeInv, cfgZ, sqId]

/-- C4 amended: all parameters share one MomentState pair; when every
parameter of the optimizer has the same shape n, every completed step()
call keeps every parameter at shape n and leaves the shared moment pair
allocated with shape n, so in the uniform-shape case the shape invariant
holds for every parameter, while with differing shapes it fails (see the
counterexample). -/
theorem C4_shared_moment_shape (sq : ℚ → ℚ) (s s' : CustomAdam) (n : ℕ)
    (hall : ∀ p ∈ s.allParams, p.data.length = n)
    (hne : s.allParams ≠ [])
    (hstep : CustomAdam.step sq s = some s') :
    (∀ p ∈ s'.allParams, p.data.length = n) ∧
    ∃ m v, s'.first_moment_estimate = some m ∧ s'.second_moment_estimate = some v ∧
      m.length = n ∧ v.length = n := by
  simp only [CustomAdam.step, Option.map_eq_some'] at hstep
  obtain ⟨r, hr, rfl⟩ := hstep
  have hallg : ∀ gr ∈ s.param_groups, ∀ p ∈ gr.params, p.data.length = n := by
    intro gr hgr p hp
    exact hall p (allParams_mem.mpr ⟨gr, hgr, hp⟩)
  have hsh := updateGroups_shape s.param_groups s.first_moment_estimate
    s.second_moment_estimate r hallg hr
  obtain ⟨gr, hgr, hgrne⟩ := allParams_ne_nil hne
  obtain ⟨m, v, hmv, hm, hv⟩ := hsh.2.2 ⟨gr, hgr, hgrne⟩
  constructor
  · intro p hp
    obtain ⟨g2, hg2, hp2⟩ := allParams_mem.mp hp
    exact hsh.1 g2 hg2 p hp2
  · exact ⟨m, v, by simp [hmv], by simp [hmv], hm, hv⟩

/-- Witness for C4 amended: a uniform-shape optimizer (one parameter of
shape 2), with the step call evaluated to its literal result state. -/
theorem C4_shared_moment_shape_witness :
    (∀ p ∈ stW.allParams, p.data.length = 2) ∧ stW.allParams ≠ [] ∧
    CustomAdam.step sqId stW = some stWOut ∧
    ((∀ p ∈ stWOut.allParams, p.data.length = 2) ∧
      ∃ m v, stWOut.first_moment_estimate = some m ∧
        stWOut.second_moment_estimate = some v ∧ m.length = 2 ∧ v.length = 2) := by
  have h1 : ∀ p ∈ stW.allParams, p.data.length = 2 := by
    simp [stW, freshAdam, CustomAdam.allParams]
  have h2 : stW.allParams ≠ [] := by
    simp [stW, freshAdam, CustomAdam.allParams]
  have h3 : CustomAdam.step sqId stW = some stWOut := by
    simp [CustomAdam.step, stW, stWOut, freshAdam, updateGroups, updateParams, updateParam,
          tensorEqNone, emap2, zerosLike, cfgZ, sqId]
    norm_num
  exact ⟨h1, h2, h3, C4_shared_moment_shape sqId stW stWOut 2 h1 h2 h3⟩

/-- C5: with bias correction disabled, the moment cells stored after a step
do not follow the EMA recurrences: the in-place divide and square root of
the update line leave m/(sqrt(v)+eps) and sqrt(v) in them.  In the worked
scenario the EMA recurrences predict stored moments (0.1, 0.001) after the
first step, but the code stores (0.1/(sqrt(0.001)+1e-8), sqrt(0.001)). -/
theorem C5_stored_moments (sq : ℚ → ℚ) (h : sq (1/1000) ≠ 1/1000) :
    ((CustomAdam.init cfgScenario [{ data := [0], grad := some [1] }]).bind
        (CustomAdam.step sq)).map
        (fun s => (s.first_moment_estimate, s.second_moment_estimate)) =
      some (some [1/10 / (sq (1/1000) + 1/100000000)], some [sq (1/1000)]) ∧
    (some [sq (1/1000)] : Option Tensor) ≠ some [1/1000] := by
  constructor
  · rw [init_eq_some _ (by norm_num [invalidConfiguration, invalidBias, cfgScenario])]
    simp only [Option.some_bind]
    simp [CustomAdam.step, freshAdam, updateGroups, updateParams, updateParam, tensorEqNone,
          emap2, zerosLike, cfgScenario]
    norm_num
  · simp only [ne_eq, Option.some.injEq, List.cons.injEq, and_true]
    exact h


/-- Witness for C5: the hypothesis holds for the constantly-zero
interpretation of the square root primitive. -/
theorem C5_stored_moments_witness :
    (sqZero (1/1000) ≠ 1/1000) ∧
    (((CustomAdam.init cfgScenario [{ data := [0], grad := some [1] }]).bind
        (CustomAdam.step sqZero)).map
        (fun s => (s.first_moment_estimate, s.second_moment_estimate)) =
      some (some [1/10 / (sqZero (1/1000) + 1/100000000)], some [sqZero (1/1000)]) ∧
    (some [sqZero (1/1000)] : Option Tensor) ≠ some [1/1000]) :=
  ⟨by norm_num [sqZero], C5_stored_moments sqZero (by norm_num [sqZero])⟩

/-- C6: the step counter starts at 0 after construction, and every
completed step() call increments it by exactly 1 (the first call sets it
to 1), independently of the number of parameters; it is strictly
increasing across calls. -/
theorem C6_step_counter (cfg : GroupConfig) (ps : List Param) (st : CustomAdam)
    (hinit : CustomAdam.init cfg ps = some st)
    (sq : ℚ → ℚ) (s s' : CustomAdam) (hstep : CustomAdam.step sq s = some s') :
    st.state_step = 0 ∧ s'.state_step = s.state_step + 1 ∧ s.state_step < s'.state_step := by
  have h0 : st.state_step = 0 := by
    unfold CustomAdam.init at hinit
    split at hinit
    · cases hinit
    · obtain rfl := Option.some.inj hinit
      rfl
  have h1 : s'.state_step = s.state_step + 1 := by
    simp only [CustomAdam.step, Option.map_eq_some'] at hstep
    obtain ⟨r, hr, rfl⟩ := hstep
    by_cases hz : s.state_step = 0 <;> simp [hz]
  exact ⟨h0, h1, by omega⟩

/-- Witness for C6: a concrete construction and a concrete completed step
call. -/
theorem C6_step_counter_witness :
    stW.state_step = 0 ∧ stWOut.state_step = stW.state_step + 1 ∧
    stW.state_step < stWOut.state_step :=
  C6_step_counter cfgZ [{ data := [0, 0], grad := some [1, 1] }] stW
    (by simp [CustomAdam.init, invalidConfiguration, invalidBias, cfgZ, stW])
    sqId stW stWOut
    (by simp [CustomAdam.step, stW, stWOut, freshAdam, updateGroups, updateParams, updateParam,
          tensorEqNone, emap2, zerosLike, cfgZ, sqId]
        norm_num)

/-- C7: with bias correction enabled, at counter value 1 and with the
moment cells freshly zero-initialised, the bias-corrected first moment is
exactly the gradient, ((1-b1)*g)/(1-b1) = g, and the bias-corrected second
moment is exactly g^2, provided the decay rates are not 1. -/
theorem C7_bias_correction_cancellation (sq : ℚ → ℚ) (cfg : GroupConfig)
    (hbc : cfg.bias_correction = true) (h1 : cfg.bias_m1 ≠ 1) (h2 : cfg.bias_m2 ≠ 1)
    (x g : ℚ) :
    ∃ po, updateParam sq cfg 1 [x] [g] none none = some po ∧
      po.mCorr = [g] ∧ po.vCorr = [g ^ 2] := by
  have h1' : 1 - cfg.bias_m1 ≠ 0 := sub_ne_zero.mpr (Ne.symm h1)
  have h2' : 1 - cfg.bias_m2 ≠ 0 := sub_ne_zero.mpr (Ne.symm h2)
  simp [updateParam, emap2, zerosLike, hbc]
  constructor
  · field_simp
  · field_simp

/-- Witness for C7: the cancellation at a configuration with decay rates
1/2 and gradient 2. -/
theorem C7_bias_correction_cancellation_witness :
    cfgHalf.bias_correction = true ∧ cfgHalf.bias_m1 ≠ 1 ∧ cfgHalf.bias_m2 ≠ 1 ∧
    (∃ po, updateParam sqId cfgHalf 1 [0] [2] none none = some po ∧
      po.mCorr = [2] ∧ po.vCorr = [(2:ℚ) ^ 2]) :=
  ⟨rfl, by norm_num [cfgHalf], by norm_num [cfgHalf],
    C7_bias_correction_cancellation sqId cfgHalf rfl
      (by norm_num [cfgHalf]) (by norm_num [cfgHalf]) 0 2⟩

/-- C8: step() writes to the gradient tensors: the in-place
gradients.pow_(2) of the second-moment update squares every used gradient,
so after the call the stored gradient is the square of the supplied one;
for the supplied gradient 2 the stored gradient is 4, not 2. -/
theorem C8_gradient_squared_in_place :
    (∀ (sq : ℚ → ℚ) (cfg : GroupConfig) (p g : ℚ),
      (CustomAdam.step sq (freshAdam cfg [{ data := [p], grad := some [g] }])).map
          CustomAdam.gradsView = some [[some [g ^ 2]]]) ∧
    (CustomAdam.step sqId (freshAdam cfgZ [{ data := [0], grad := some [2] }])).map
        CustomAdam.gradsView = some [[some [4]]] ∧
    (some [[some [(4:ℚ)]]] : Option (List (List (Option Tensor)))) ≠ some [[some [2]]] := by
  have hgen : ∀ (sq : ℚ → ℚ) (cfg : GroupConfig) (p g : ℚ),
      (CustomAdam.step sq (freshAdam cfg [{ data := [p], grad := some [g] }])).map
        CustomAdam.gradsView = some [[some [g ^ 2]]] := by
    intro sq cfg p g
    rcases hbc : cfg.bias_correction <;>
      simp [CustomAdam.step, freshAdam, updateGroups, updateParams, updateParam, tensorEqNone,
            emap2, zerosLike, CustomAdam.gradsView, hbc]
  refine ⟨hgen, ?_, by norm_num⟩
  rw [hgen sqId cfgZ 0 2]
  norm_num

/-- C9: the embedded optimizer is a pure function of its construction
arguments and gradient schedule, so two instances constructed identically
and fed identical gradient schedules produce identical state
trajectories. -/
theorem C9_determinism (sq : ℚ → ℚ) (cfg1 cfg2 : GroupConfig) (ps1 ps2 : List Param)
    (fs1 fs2 : List (List (List (Option Tensor))))
    (hcfg : cfg1 = cfg2) (hps : ps1 = ps2) (hfs : fs1 = fs2) :
    trajectory sq (CustomAdam.init cfg1 ps1) fs1 =
      trajectory sq (CustomAdam.init cfg2 ps2) fs2 := by
  subst hcfg
  subst hps
  subst hfs
  rfl

/-- Witness for C9: two textually separate but equal construction calls and
schedules. -/
theorem C9_determinism_witness :
    trajectory sqId (CustomAdam.init cfgZ [{ data := [0], grad := some [1] }])
        [[[some [1]]], [[some [1]]]] =
      trajectory sqId (CustomAdam.init cfgZ [{ data := [0], grad := some [1] }])
        [[[some [1]]], [[some [1]]]] :=
  C9_determinism sqId cfgZ cfgZ _ _ _ _ rfl rfl rfl

/-- C10: the constructor never validates epsilon: whether construction
succeeds does not depend on epsilon at all, and with the default values of
the other hyperparameters it succeeds for every epsilon, zero and negative
included. -/
theorem C10_epsilon_unvalidated :
    (∀ (stepsize bias_m1 bias_m2 : ℚ) (bc : Bool) (e e' : ℚ) (ps : List Param),
      (CustomAdam.init ⟨stepsize, bias_m1, bias_m2, e, bc⟩ ps).isSome =
        (CustomAdam.init ⟨stepsize, bias_m1, bias_m2, e', bc⟩ ps).isSome) ∧
    (∀ (e : ℚ) (ps : List Param),
      (CustomAdam.init ⟨1/1000, 9/10, 999/1000, e, true⟩ ps).isSome = true) := by
  constructor
  · intro s b1 b2 bc e e' ps
    by_cases h : invalidConfiguration ⟨s, b1, b2, e, bc⟩ = true
    · have h' : invalidConfiguration ⟨s, b1, b2, e', bc⟩ = true := by
        simpa [invalidConfiguration, invalidBias] using h
      simp [CustomAdam.init, h, h']
    · have hf := Bool.eq_false_iff.mpr h
      have h' : invalidConfiguration ⟨s, b1, b2, e', bc⟩ = false := by
        simpa [invalidConfiguration, invalidBias] using hf
      simp [CustomAdam.init, hf, h']
  · intro e ps
    have hf : invalidConfiguration ⟨1/1000, 9/10, 999/1000, e, true⟩ = false := by
      norm_num [invalidConfiguration, invalidBias]
    simp only [CustomAdam.init]
    rw [hf]
    rfl
